import Mathlib

/-!
Shallow embedding of `simple_kernel.py` (a minimal IPython kernel backend).

The embedding covers the parts of the program the verification needs:

* the message data model: decoded JSON values (`JVal`) and wire frames
  (`Frame`),
* the signing path `sign` / `send` (lines 57-80 of the source),
* the shell channel handler `shell_handler` (lines 140-225), split into the
  frame-scanning/decoding phase and the request `dispatch` phase
  (lines 158-225),
* the per-channel run-loop failure handling `run_thread` (lines 82-102) and
  `heartbeat_loop` (lines 104-116), modelled by their per-iteration outcome
  on each possible event.

External collaborators of the program (the `json` codec, the `hmac`/`hashlib`
digest, and `uuid.uuid4`) are modelled as parameters collected in `Env`:
`enc` stands for `json.JSONEncoder().encode`, `digest` for the raw keyed hash
underlying `hmac.HMAC(key, sha256)`, and `ids` for the stream of fresh uuid
strings returned by successive `msg_id()` calls.  A wire frame is classified
as `Frame.json v` when its bytes are the valid JSON encoding of `v` (so
`json.JSONDecoder().decode` succeeds and returns `v`) and as `Frame.raw s`
when its bytes `s` are not valid JSON (so decoding raises `ValueError`).
Python exceptions are modelled with `Except Err`.
-/

namespace SimpleKernel

/-- Decoded JSON values: the result of `json.JSONDecoder().decode` and the
input of `json.JSONEncoder().encode`. -/
inductive JVal where
  | jnull
  | jbool (b : Bool)
  | jnum (n : Int)
  | jstr (s : String)
  | jarr (elems : List JVal)
  | jobj (fields : List (String × JVal))

/-- Python exceptions that the modelled code can raise. -/
inductive Err where
  /-- `IndexError: list index out of range` -/
  | indexError
  /-- `ValueError` from `json.JSONDecoder().decode` on bytes that are not
  valid JSON -/
  | decodeError
  /-- `KeyError` from `d[k]` on a dict without key `k` -/
  | keyError (k : String)
  /-- `TypeError` from `v[k]` with a string key on a non-dict value -/
  | typeError
  deriving DecidableEq

/-- A wire frame, classified by whether its bytes are valid JSON:
`json v` is a frame whose bytes decode to the value `v`, `raw s` is a frame
whose bytes `s` are not valid JSON (for example the `"<IDS|MSG>"` delimiter
or an hmac hex signature). -/
inductive Frame where
  | raw (bytes : String)
  | json (v : JVal)

/-- The external collaborators of the process, fixed at startup. -/
structure Env where
  /-- `json.JSONEncoder().encode` -/
  enc : JVal → String
  /-- the raw keyed digest underlying `hmac.HMAC(key, digestmod=sha256)`:
  from the key and the sequence of absorbed chunks, the digest value -/
  digest : String → List String → Nat
  /-- `secure_key` (line 279 of the source) -/
  key : String
  /-- the stream of fresh uuid strings produced by successive `msg_id()`
  calls (line 53-55) -/
  ids : Nat → String

/-- The bytes of a frame (a `json` frame's bytes are its encoding). -/
def frameBytes (enc : JVal → String) : Frame → String
  | .raw s => s
  | .json v => enc v

/-- `json.JSONDecoder().decode` on a frame's bytes: succeeds exactly on
frames carrying valid JSON. -/
def decodeF : Frame → Option JVal
  | .raw _ => none
  | .json v => some v

/-- Python `v[k]` with a string key: value on a dict that has the key,
`KeyError` on a dict without it, `TypeError` on any non-dict. -/
def JVal.getKey : JVal → String → Except Err JVal
  | .jobj fields, k =>
    match fields.lookup k with
    | some v => .ok v
    | none => .error (.keyError k)
  | _, _ => .error .typeError

/-! ### The signing path (source lines 57-80 and 281-283) -/

/-- The state of an `hmac.HMAC` object: its key and the chunks absorbed so
far, in order.  The digest value itself is computed by `Env.digest`. -/
structure HmacState where
  key : String
  msgs : List String

/-- `h.update(m)`: absorb one more chunk. -/
def HmacState.update (h : HmacState) (m : String) : HmacState :=
  ⟨h.key, h.msgs ++ [m]⟩

/-- The hex digit character for `n < 16` (`0`-`9` then `a`-`f`). -/
def hexDigitCh (n : Nat) : Char :=
  if n < 10 then Char.ofNat (48 + n) else Char.ofNat (87 + n)

/-- Big-endian hex digits of `n`, accumulated onto `acc` (fuel-driven; fuel
`n` always suffices since `n / 16` at least halves). -/
def toHexCore : Nat → Nat → List Char → List Char
  | 0, _, acc => acc
  | fuel + 1, n, acc =>
    if n = 0 then acc else toHexCore fuel (n / 16) (hexDigitCh (n % 16) :: acc)

/-- `hexdigest()` rendering of a sha256 digest value: lowercase hex text,
zero-padded to 64 characters. -/
def toHexPad64 (n : Nat) : String :=
  let ds := toHexCore n n []
  ⟨List.replicate (64 - ds.length) '0' ++ ds⟩

/-- `h.hexdigest()`: the digest of the absorbed chunks under the key,
rendered as lowercase hex text. -/
def HmacState.hexdigest (d : String → List String → Nat) (h : HmacState) :
    String :=
  toHexPad64 (d h.key h.msgs)

/-- The global `auth` object (line 281-283): an HMAC seeded with the process
secret key, with nothing absorbed yet. -/
def initAuth (key : String) : HmacState := ⟨key, []⟩

/-- `sign(msg_lst)` (lines 57-64): copy `auth`, absorb every chunk of
`msg_lst` in order, and return the lowercase hex digest. -/
def sign (env : Env) (msg_lst : List String) : String :=
  (msg_lst.foldl HmacState.update (initAuth env.key)).hexdigest env.digest

/-- `send(stream, header, parent_header, metadata, content)` (lines 66-80):
the frames handed to `stream.send_multipart`, as byte strings. -/
def send (env : Env) (header parent_header metadata content : JVal) :
    List String :=
  let msg_lst := [env.enc header, env.enc parent_header, env.enc metadata,
                  env.enc content]
  let signature := sign env msg_lst
  ["<IDS|MSG>", signature, msg_lst[0]!, msg_lst[1]!, msg_lst[2]!, msg_lst[3]!]

/-! ### The shell handler (source lines 140-225) -/

/-- The stream a produced message is sent on. -/
inductive Chan where
  | shell
  | iopub
  deriving DecidableEq

/-- One `send(stream, header, parent_header, metadata, content)` call made by
the handler, recorded by its stream and the four decoded parts (the wire
rendering of such a record is `send`). -/
structure Sent where
  chan : Chan
  header : JVal
  parent_header : JVal
  metadata : JVal
  content : JVal

/-- A reply/broadcast header dict literal as built in every branch of
`shell_handler`: fresh `msg_id`, `username` and `session` copied from the
request header, and the branch's `msg_type`. -/
def mkHeader (id : String) (username session : JVal) (msg_type : String) :
    JVal :=
  .jobj [("msg_id", .jstr id), ("username", username), ("session", session),
         ("msg_type", .jstr msg_type)]

/-- `pub_content` of the execute branch (lines 167-171). -/
def pyoutContent (execution_count : Nat) : JVal :=
  .jobj [("execution_count", .jnum execution_count),
         ("data", .jobj [("text/plain", .jstr "result!")]),
         ("metadata", .jobj [])]

/-- The execute-reply `content` of the execute branch (lines 179-185). -/
def executeReplyContent (execution_count : Nat) : JVal :=
  .jobj [("status", .jstr "ok"),
         ("execution_count", .jnum execution_count),
         ("playload", .jarr []),
         ("user_variables", .jobj []),
         ("user_expressions", .jobj [])]

/-- The kernel-info reply `content` (lines 194-199). -/
def kernelInfoContent : JVal :=
  .jobj [("protocol_version", .jarr [.jnum 1, .jnum 1]),
         ("ipython_version", .jarr [.jnum 1, .jnum 1, .jnum 0, .jstr ""]),
         ("language_version", .jarr [.jnum 0, .jnum 0, .jnum 1]),
         ("language", .jstr "simple")]

/-- The history reply `content` (lines 208-210). -/
def historyContent : JVal := .jobj [("output", .jbool false)]

/-- The unknown-type error reply `content` (lines 220-223). -/
def errorReplyContent (execution_count : Nat) : JVal :=
  .jobj [("status", .jstr "error"),
         ("execution_count", .jnum execution_count)]

/-- Python `v == "s"` for a decoded value against a string literal: true
exactly when `v` is that string (any non-string compares unequal without
raising). -/
def jstrEq (v : JVal) (s : String) : Bool :=
  match v with
  | .jstr t => t = s
  | _ => false

/-- The request-processing phase of `shell_handler` (lines 158-225), run on
the decoded parts.  Returns the list of `send` calls made, in order, and the
new value of the global `execution_count` (line 225 increments it after
every branch of the if/elif chain).  Dict lookups raise as in Python, in
evaluation order (in the execute branch `content["code"]` on line 160 is
evaluated before the header literal's `username`/`session` lookups). -/
def dispatch (ids : Nat → String) (execution_count : Nat)
    (shell_header metadata content : JVal) :
    Except Err (List Sent × Nat) :=
  match shell_header.getKey "msg_type" with
  | .error e => .error e
  | .ok mt =>
    if jstrEq mt "execute_request" then
      match content.getKey "code", shell_header.getKey "username",
            shell_header.getKey "session" with
      | .error e, _, _ => .error e
      | .ok _, .error e, _ => .error e
      | .ok _, .ok _, .error e => .error e
      | .ok _code, .ok username, .ok session =>
        .ok ([⟨.iopub, mkHeader (ids 0) username session "pyout",
               shell_header, metadata, pyoutContent execution_count⟩,
              ⟨.shell, mkHeader (ids 1) username session "execute_reply",
               shell_header, metadata, executeReplyContent execution_count⟩],
             execution_count + 1)
    else if jstrEq mt "kernel_info_request" then
      match shell_header.getKey "username", shell_header.getKey "session" with
      | .error e, _ => .error e
      | .ok _, .error e => .error e
      | .ok username, .ok session =>
        .ok ([⟨.shell, mkHeader (ids 0) username session "kernel_info_reply",
               shell_header, metadata, kernelInfoContent⟩],
             execution_count + 1)
    else if jstrEq mt "history_request" then
      match shell_header.getKey "username", shell_header.getKey "session" with
      | .error e, _ => .error e
      | .ok _, .error e => .error e
      | .ok username, .ok session =>
        .ok ([⟨.shell, mkHeader (ids 0) username session "kernel_info_reply",
               shell_header, metadata, historyContent⟩],
             execution_count + 1)
    else
      match shell_header.getKey "username", shell_header.getKey "session" with
      | .error e, _ => .error e
      | .ok _, .error e => .error e
      | .ok username, .ok session =>
        .ok ([⟨.shell, mkHeader (ids 0) username session "execute_reply",
               shell_header, metadata, errorReplyContent execution_count⟩],
             execution_count + 1)

/-- The delimiter scan of lines 143-145 (`position = 0; while
msg[position] != "<IDS|MSG>": position += 1`), walking the frame list while
carrying the absolute index: the first index whose frame bytes equal
`"<IDS|MSG>"`, or `IndexError` when the scan runs past the end. -/
def scanAux (enc : JVal → String) : List Frame → Nat → Except Err Nat
  | [], _ => .error .indexError
  | f :: rest, position =>
    if frameBytes enc f = "<IDS|MSG>" then .ok position
    else scanAux enc rest (position + 1)

/-- The delimiter scan started at position 0 on the full frame list. -/
def scanDelim (env : Env) (msg : List Frame) : Except Err Nat :=
  scanAux env.enc msg 0

/-- Python `msg[i]` on a list: the element, or `IndexError` past the end. -/
def pyGet (msg : List Frame) (i : Nat) : Except Err Frame :=
  match msg[i]? with
  | some f => .ok f
  | none => .error .indexError

/-- `decode(msg[i])`: `IndexError` past the end, `ValueError` on bytes that
are not valid JSON, otherwise the decoded value (lines 148-151). -/
def decodePart (msg : List Frame) (i : Nat) : Except Err JVal :=
  Except.bind (pyGet msg i) fun f =>
    match decodeF f with
    | some v => .ok v
    | none => .error .decodeError

/-- `check_sig = sign(msg[position + 2:position + 6])` (line 155): the
signature recomputed over the raw bytes of the four part frames.  Python
slicing keeps whatever of the four indices exist.  The handler prints this
value and never uses it. -/
def check_sig (env : Env) (msg : List Frame) (position : Nat) : String :=
  sign env
    (([msg[position + 2]?, msg[position + 3]?, msg[position + 4]?,
       msg[position + 5]?].filterMap id).map (frameBytes env.enc))

/-- `shell_handler(msg)` (lines 140-225): scan for the delimiter, read the
signature frame, decode the four parts in order (each step raising as in
Python), compute (and only print) `check_sig`, then process the request.
Returns the `send` calls made and the new `execution_count`, or the raised
exception.  `msg[position]` on line 146 always succeeds after the scan and
is omitted; the decoded `parent_header` is never used by the source. -/
def shell_handler (env : Env) (execution_count : Nat) (msg : List Frame) :
    Except Err (List Sent × Nat) :=
  Except.bind (scanDelim env msg) fun position =>
  Except.bind (pyGet msg (position + 1)) fun _signature =>
  Except.bind (decodePart msg (position + 2)) fun shell_header =>
  Except.bind (decodePart msg (position + 3)) fun _parent_header =>
  Except.bind (decodePart msg (position + 4)) fun metadata =>
  Except.bind (decodePart msg (position + 5)) fun content =>
  let _check_sig := check_sig env msg position
  dispatch env.ids execution_count shell_header metadata content

/-! ### The channel run-loops (source lines 82-116) -/

/-- `errno.EINTR`. -/
def EINTR : Nat := 4

/-- What one `loop.start()` / `zmq.device(...)` call does: return normally,
raise a `ZMQError` with some errno, or raise some other exception. -/
inductive LoopEvent where
  | normal
  | zmqError (errno : Nat)
  | otherExc
  deriving DecidableEq

/-- What the enclosing loop iteration does with that outcome. -/
inductive LoopOutcome where
  /-- `continue`: retry the wait -/
  | retry
  /-- `break`: leave the loop quietly -/
  | breakQuiet
  /-- `raise`: terminate the loop by propagating the error -/
  | propagate
  deriving DecidableEq

/-- One iteration of `run_thread` (lines 84-102): a `ZMQError` with errno
`EINTR` is retried, any other `ZMQError` is re-raised, any other exception
is re-raised unless the global `exiting` flag is set (then the loop breaks
quietly), and a normal return breaks the loop. -/
def run_thread_step (exiting : Bool) : LoopEvent → LoopOutcome
  | .normal => .breakQuiet
  | .zmqError e => if e = EINTR then .retry else .propagate
  | .otherExc => if exiting then .breakQuiet else .propagate

/-- One iteration of `heartbeat_loop` (lines 106-116): a `ZMQError` with
errno `EINTR` is retried, any other `ZMQError` is re-raised, and a non-ZMQ
exception has no handler at all, so it propagates whatever the `exiting`
flag says; a normal return breaks the loop. -/
def heartbeat_step (_exiting : Bool) : LoopEvent → LoopOutcome
  | .normal => .breakQuiet
  | .zmqError e => if e = EINTR then .retry else .propagate
  | .otherExc => .propagate

/-! ### Basic lemmas -/

@[simp] lemma except_bind_ok {α β ε : Type} (a : α) (f : α → Except ε β) :
    Except.bind (Except.ok a) f = f a := rfl

@[simp] lemma except_bind_error {α β ε : Type} (e : ε) (f : α → Except ε β) :
    Except.bind (Except.error e : Except ε α) f = (Except.error e : Except ε β) := rfl

/-- The scan only ever raises `IndexError`. -/
lemma scanAux_error_eq (enc : JVal → String) :
    ∀ (l : List Frame) (j : Nat) (e : Err),
      scanAux enc l j = .error e → e = .indexError := by
  intro l
  induction l with
  | nil =>
    intro j e h
    simp only [scanAux, Except.error.injEq] at h
    exact h.symm
  | cons f0 rest ih =>
    intro j e h
    by_cases h0 : frameBytes enc f0 = "<IDS|MSG>"
    · simp only [scanAux, if_pos h0] at h
      exact Except.noConfusion h
    · simp only [scanAux, if_neg h0] at h
      exact ih (j + 1) e h

/-- Full characterization of a successful scan: it returns `j + k` where `k`
is the index (in the remaining list) of the first delimiter frame. -/
lemma scanAux_ok_iff (enc : JVal → String) :
    ∀ (l : List Frame) (j p : Nat),
      scanAux enc l j = .ok p ↔
        ∃ k f, p = j + k ∧ l[k]? = some f ∧ frameBytes enc f = "<IDS|MSG>" ∧
          ∀ m f', m < k → l[m]? = some f' →
            frameBytes enc f' ≠ "<IDS|MSG>" := by
  intro l
  induction l with
  | nil =>
    intro j p
    simp [scanAux]
  | cons f0 rest ih =>
    intro j p
    by_cases h0 : frameBytes enc f0 = "<IDS|MSG>"
    · simp only [scanAux, if_pos h0]
      constructor
      · intro h
        injection h with h'
        subst h'
        refine ⟨0, f0, by omega, by simp, h0, ?_⟩
        intro m f' hm
        exact absurd hm (Nat.not_lt_zero m)
      · rintro ⟨k, f, hp, hk, hdel, hall⟩
        cases k with
        | zero =>
          simp only [List.getElem?_cons_zero, Option.some.injEq] at hk
          subst hk
          exact congrArg Except.ok (by omega)
        | succ k' =>
          exact absurd h0 (hall 0 f0 (Nat.succ_pos k') (by simp))
    · simp only [scanAux, if_neg h0]
      rw [ih (j + 1) p]
      constructor
      · rintro ⟨k, f, hp, hk, hdel, hall⟩
        refine ⟨k + 1, f, by omega, by simpa using hk, hdel, ?_⟩
        intro m f' hm hmf'
        cases m with
        | zero =>
          simp only [List.getElem?_cons_zero, Option.some.injEq] at hmf'
          subst hmf'
          exact h0
        | succ m' =>
          exact hall m' f' (by omega) (by simpa using hmf')
      · rintro ⟨k, f, hp, hk, hdel, hall⟩
        cases k with
        | zero =>
          simp only [List.getElem?_cons_zero, Option.some.injEq] at hk
          subst hk
          exact absurd hdel h0
        | succ k' =>
          refine ⟨k', f, by omega, by simpa using hk, hdel, ?_⟩
          intro m f' hm hmf'
          exact hall (m + 1) f' (by omega) (by simpa using hmf')

/-- If some frame carries the delimiter bytes, the scan succeeds, at an index
no later than that frame. -/
lemma scanAux_finds (enc : JVal → String) :
    ∀ (l : List Frame) (j i : Nat) (f : Frame),
      l[i]? = some f → frameBytes enc f = "<IDS|MSG>" →
      ∃ p, scanAux enc l j = .ok p ∧ p ≤ j + i := by
  intro l
  induction l with
  | nil =>
    intro j i f h
    simp at h
  | cons f0 rest ih =>
    intro j i f hf hdel
    by_cases h0 : frameBytes enc f0 = "<IDS|MSG>"
    · exact ⟨j, by simp only [scanAux, if_pos h0], by omega⟩
    · cases i with
      | zero =>
        simp only [List.getElem?_cons_zero, Option.some.injEq] at hf
        subst hf
        exact absurd hdel h0
      | succ i' =>
        obtain ⟨p, hp, hple⟩ := ih (j + 1) i' f (by simpa using hf) hdel
        exact ⟨p, by simp only [scanAux, if_neg h0]; exact hp, by omega⟩

/-- `scanDelim` characterization at absolute indices. -/
lemma scanDelim_ok_iff (env : Env) (msg : List Frame) (p : Nat) :
    scanDelim env msg = .ok p ↔
      ∃ f, msg[p]? = some f ∧ frameBytes env.enc f = "<IDS|MSG>" ∧
        ∀ m f', m < p → msg[m]? = some f' →
          frameBytes env.enc f' ≠ "<IDS|MSG>" := by
  rw [scanDelim, scanAux_ok_iff]
  constructor
  · rintro ⟨k, f, hp, hk, hd, hall⟩
    obtain rfl : k = p := by omega
    exact ⟨f, hk, hd, hall⟩
  · rintro ⟨f, hk, hd, hall⟩
    exact ⟨p, f, by omega, hk, hd, hall⟩

/-- With no delimiter frame anywhere, the scan runs past the end of the list
and raises `IndexError`. -/
lemma scanDelim_none (env : Env) (msg : List Frame)
    (h : ∀ f ∈ msg, frameBytes env.enc f ≠ "<IDS|MSG>") :
    scanDelim env msg = .error .indexError := by
  cases hs : scanDelim env msg with
  | ok p =>
    obtain ⟨f, hk, hd, -⟩ := (scanDelim_ok_iff env msg p).mp hs
    exact absurd hd (h f (List.getElem?_mem hk))
  | error e =>
    rw [scanDelim] at hs
    rw [scanAux_error_eq env.enc msg 0 e hs]

/-- With a delimiter frame at index `i`, the scan succeeds at some `p ≤ i`. -/
lemma scanDelim_finds (env : Env) (msg : List Frame) (i : Nat) (f : Frame)
    (hf : msg[i]? = some f) (hd : frameBytes env.enc f = "<IDS|MSG>") :
    ∃ p, scanDelim env msg = .ok p ∧ p ≤ i := by
  obtain ⟨p, hp, hle⟩ := scanAux_finds env.enc msg 0 i f hf hd
  exact ⟨p, hp, by omega⟩

/-- A dict access can only raise `KeyError` or `TypeError`. -/
lemma getKey_error_cases (v : JVal) (k : String) (e : Err)
    (h : v.getKey k = .error e) : e = .keyError k ∨ e = .typeError := by
  cases v with
  | jobj fields =>
    simp only [JVal.getKey] at h
    cases hl : fields.lookup k with
    | some x =>
      rw [hl] at h
      exact Except.noConfusion h
    | none =>
      rw [hl] at h
      exact Or.inl (Except.error.inj h).symm
  | jnull => exact Or.inr (Except.error.inj h).symm
  | jbool b => exact Or.inr (Except.error.inj h).symm
  | jnum n => exact Or.inr (Except.error.inj h).symm
  | jstr s => exact Or.inr (Except.error.inj h).symm
  | jarr elems => exact Or.inr (Except.error.inj h).symm

/-- In-bounds list access succeeds with the element found there. -/
lemma pyGet_of_some (msg : List Frame) (i : Nat) (f : Frame)
    (hf : msg[i]? = some f) : pyGet msg i = .ok f := by
  unfold pyGet
  rw [hf]

/-- Out-of-bounds list access raises `IndexError`. -/
lemma pyGet_of_none (msg : List Frame) (i : Nat) (hf : msg[i]? = none) :
    pyGet msg i = .error .indexError := by
  unfold pyGet
  rw [hf]

/-- In-range list access succeeds. -/
lemma pyGet_eq_ok (msg : List Frame) (i : Nat) (h : i < msg.length) :
    pyGet msg i = .ok (msg[i]) :=
  pyGet_of_some msg i (msg[i]) (List.getElem?_eq_getElem h)

/-- `decodePart` at an existing frame, reduced to the decode of that frame. -/
lemma decodePart_of_some (msg : List Frame) (i : Nat) (f : Frame)
    (hf : msg[i]? = some f) :
    decodePart msg i =
      match decodeF f with
      | some v => .ok v
      | none => .error .decodeError := by
  unfold decodePart
  rw [pyGet_of_some msg i f hf]
  rfl

/-- An in-range part access never raises `IndexError` (only `ValueError`). -/
lemma decodePart_error_of_some (msg : List Frame) (i : Nat) (f : Frame)
    (hf : msg[i]? = some f) (e : Err) (h : decodePart msg i = .error e) :
    e = .decodeError := by
  rw [decodePart_of_some msg i f hf] at h
  cases hd : decodeF f with
  | some v =>
    rw [hd] at h
    exact Except.noConfusion h
  | none =>
    rw [hd] at h
    exact (Except.error.inj h).symm

/-- Complete inversion of a successful `dispatch`: the counter always steps
by exactly one (line 225 sits after the whole if/elif chain), the request
header owned `msg_type`, `username` and `session`, and the outputs are the
branch's sends. -/
lemma dispatch_ok_cases (ids : Nat → String) (ec : Nat) (sh md ct : JVal)
    (outs : List Sent) (ec' : Nat)
    (hd : dispatch ids ec sh md ct = .ok (outs, ec')) :
    ec' = ec + 1 ∧
    ∃ mt u s, sh.getKey "msg_type" = .ok mt ∧ sh.getKey "username" = .ok u ∧
      sh.getKey "session" = .ok s ∧
      ((jstrEq mt "execute_request" = true ∧
        outs = [⟨.iopub, mkHeader (ids 0) u s "pyout", sh, md,
                 pyoutContent ec⟩,
                ⟨.shell, mkHeader (ids 1) u s "execute_reply", sh, md,
                 executeReplyContent ec⟩]) ∨
       (jstrEq mt "execute_request" = false ∧
        jstrEq mt "kernel_info_request" = true ∧
        outs = [⟨.shell, mkHeader (ids 0) u s "kernel_info_reply", sh, md,
                 kernelInfoContent⟩]) ∨
       (jstrEq mt "execute_request" = false ∧
        jstrEq mt "kernel_info_request" = false ∧
        jstrEq mt "history_request" = true ∧
        outs = [⟨.shell, mkHeader (ids 0) u s "kernel_info_reply", sh, md,
                 historyContent⟩]) ∨
       (jstrEq mt "execute_request" = false ∧
        jstrEq mt "kernel_info_request" = false ∧
        jstrEq mt "history_request" = false ∧
        outs = [⟨.shell, mkHeader (ids 0) u s "execute_reply", sh, md,
                 errorReplyContent ec⟩])) := by
  unfold dispatch at hd
  split at hd
  · exact Except.noConfusion hd
  · rename_i mt hmt
    split at hd
    · rename_i hex
      split at hd
      · exact Except.noConfusion hd
      · exact Except.noConfusion hd
      · exact Except.noConfusion hd
      · rename_i hcode hu hs
        injection hd with hd1
        injection hd1 with houts hec
        subst houts
        subst hec
        exact ⟨rfl, mt, _, _, hmt, hu, hs, Or.inl ⟨hex, rfl⟩⟩
    · rename_i hnex
      simp only [Bool.not_eq_true] at hnex
      split at hd
      · rename_i hki
        split at hd
        · exact Except.noConfusion hd
        · exact Except.noConfusion hd
        · rename_i hu hs
          injection hd with hd1
          injection hd1 with houts hec
          subst houts
          subst hec
          exact ⟨rfl, mt, _, _, hmt, hu, hs, Or.inr (Or.inl ⟨hnex, hki, rfl⟩)⟩
      · rename_i hnki
        simp only [Bool.not_eq_true] at hnki
        split at hd
        · rename_i hhist
          split at hd
          · exact Except.noConfusion hd
          · exact Except.noConfusion hd
          · rename_i hu hs
            injection hd with hd1
            injection hd1 with houts hec
            subst houts
            subst hec
            exact ⟨rfl, mt, _, _, hmt, hu, hs,
              Or.inr (Or.inr (Or.inl ⟨hnex, hnki, hhist, rfl⟩))⟩
        · rename_i hnhist
          simp only [Bool.not_eq_true] at hnhist
          split at hd
          · exact Except.noConfusion hd
          · exact Except.noConfusion hd
          · rename_i hu hs
            injection hd with hd1
            injection hd1 with houts hec
            subst houts
            subst hec
            exact ⟨rfl, mt, _, _, hmt, hu, hs,
              Or.inr (Or.inr (Or.inr ⟨hnex, hnki, hnhist, rfl⟩))⟩

/-- `dispatch` never raises `IndexError`: its only failures are dict
lookups. -/
lemma dispatch_error_ne_indexError (ids : Nat → String) (ec : Nat)
    (sh md ct : JVal) (e : Err)
    (hd : dispatch ids ec sh md ct = .error e) : e ≠ .indexError := by
  intro hcontra
  subst hcontra
  unfold dispatch at hd
  split at hd
  · rename_i hmt
    obtain rfl := Except.error.inj hd
    rcases getKey_error_cases _ _ _ hmt with h | h <;> exact Err.noConfusion h
  · rename_i mt hmt
    split at hd
    · split at hd
      · rename_i hcode
        obtain rfl := Except.error.inj hd
        rcases getKey_error_cases _ _ _ hcode with h | h <;> exact Err.noConfusion h
      · rename_i hu2
        obtain rfl := Except.error.inj hd
        rcases getKey_error_cases _ _ _ hu2 with h | h <;> exact Err.noConfusion h
      · rename_i hs2
        obtain rfl := Except.error.inj hd
        rcases getKey_error_cases _ _ _ hs2 with h | h <;> exact Err.noConfusion h
      · exact Except.noConfusion hd
    · split at hd
      · split at hd
        · rename_i hu3
          obtain rfl := Except.error.inj hd
          rcases getKey_error_cases _ _ _ hu3 with h | h <;> exact Err.noConfusion h
        · rename_i hs3
          obtain rfl := Except.error.inj hd
          rcases getKey_error_cases _ _ _ hs3 with h | h <;> exact Err.noConfusion h
        · exact Except.noConfusion hd
      · split at hd
        · split at hd
          · rename_i hu4
            obtain rfl := Except.error.inj hd
            rcases getKey_error_cases _ _ _ hu4 with h | h <;> exact Err.noConfusion h
          · rename_i hs4
            obtain rfl := Except.error.inj hd
            rcases getKey_error_cases _ _ _ hs4 with h | h <;> exact Err.noConfusion h
          · exact Except.noConfusion hd
        · split at hd
          · rename_i hu5
            obtain rfl := Except.error.inj hd
            rcases getKey_error_cases _ _ _ hu5 with h | h <;> exact Err.noConfusion h
          · rename_i hs5
            obtain rfl := Except.error.inj hd
            rcases getKey_error_cases _ _ _ hs5 with h | h <;> exact Err.noConfusion h
          · exact Except.noConfusion hd

/-! ### Lowercase-hex rendering -/

/-- `c` is a lowercase hex digit. -/
def isLowerHex (c : Char) : Bool :=
  ('0' ≤ c && c ≤ '9') || ('a' ≤ c && c ≤ 'f')

lemma isLowerHex_hexDigitCh (n : Nat) (h : n < 16) :
    isLowerHex (hexDigitCh n) = true := by
  interval_cases n <;> decide

lemma toHexCore_lower (fuel : Nat) :
    ∀ (n : Nat) (acc : List Char), (∀ c ∈ acc, isLowerHex c = true) →
      ∀ c ∈ toHexCore fuel n acc, isLowerHex c = true := by
  induction fuel with
  | zero =>
    intro n acc hacc c hc
    simp only [toHexCore] at hc
    exact hacc c hc
  | succ fuel ih =>
    intro n acc hacc c hc
    simp only [toHexCore] at hc
    by_cases hn : n = 0
    · rw [if_pos hn] at hc
      exact hacc c hc
    · rw [if_neg hn] at hc
      refine ih (n / 16) _ ?_ c hc
      intro c' hc'
      rcases List.mem_cons.mp hc' with rfl | hmem
      · exact isLowerHex_hexDigitCh _ (Nat.mod_lt n (by omega))
      · exact hacc c' hmem

/-- Every character of a rendered digest is a lowercase hex digit. -/
lemma toHexPad64_lower (n : Nat) :
    ∀ c ∈ (toHexPad64 n).toList, isLowerHex c = true := by
  intro c hc
  simp only [toHexPad64, String.toList] at hc
  rcases List.mem_append.mp hc with hrep | hcore
  · rw [List.eq_of_mem_replicate hrep]
    decide
  · exact toHexCore_lower n n [] (by intro c' hc'; simp at hc') c hcore

/-! ### Decomposition of `shell_handler` after a successful scan -/

/-- After the scan succeeds at `p`, the handler is the sequence of the
signature read, the four decodes and the dispatch (the computed-and-printed
`check_sig` does not influence the result). -/
lemma shell_handler_eq (env : Env) (ec : Nat) (msg : List Frame) (p : Nat)
    (hscan : scanDelim env msg = .ok p) :
    shell_handler env ec msg =
      (Except.bind (pyGet msg (p + 1)) fun _sig =>
       Except.bind (decodePart msg (p + 2)) fun sh =>
       Except.bind (decodePart msg (p + 3)) fun _ph =>
       Except.bind (decodePart msg (p + 4)) fun md =>
       Except.bind (decodePart msg (p + 5)) fun ct =>
       dispatch env.ids ec sh md ct) := by
  unfold shell_handler
  rw [hscan]
  rfl

/-- Binding an in-range `decodePart` can fail only with `ValueError`, never
with `IndexError`, as long as the continuation cannot produce one. -/
lemma bind_decodePart_ne_indexError {β : Type} (msg : List Frame) (i : Nat)
    (hi : i < msg.length) (k : JVal → Except Err β)
    (hk : ∀ v, k v ≠ .error .indexError) :
    Except.bind (decodePart msg i) k ≠ .error .indexError := by
  cases hd : decodePart msg i with
  | error e =>
    rw [except_bind_error]
    have he := decodePart_error_of_some msg i _ (List.getElem?_eq_getElem hi) e hd
    subst he
    intro hcon
    exact Err.noConfusion (Except.error.inj hcon)
  | ok v =>
    rw [except_bind_ok]
    exact hk v

/-! ### Concrete inputs used by witnesses and counterexamples -/

/-- A concrete environment: a constant JSON encoder, the zero digest, and a
constant fresh-id supply. -/
def env0 : Env :=
  { enc := fun _ => "json",
    digest := fun _ _ => 0,
    key := "secret",
    ids := fun _ => "fresh-id" }

/-- A well-formed execute-request header. -/
def hdrExec : JVal :=
  .jobj [("msg_id", .jstr "a"), ("username", .jstr "u"),
         ("session", .jstr "s"), ("msg_type", .jstr "execute_request")]

/-- A header with an unrecognized message type. -/
def hdrUnknown : JVal :=
  .jobj [("msg_id", .jstr "a"), ("username", .jstr "u"),
         ("session", .jstr "s"), ("msg_type", .jstr "comm_open")]

/-- A well-formed history-request header. -/
def hdrHist : JVal :=
  .jobj [("msg_id", .jstr "a"), ("username", .jstr "u"),
         ("session", .jstr "s"), ("msg_type", .jstr "history_request")]

/-- The empty JSON object. -/
def emptyObj : JVal := .jobj []

/-- An execute-request content carrying a code payload. -/
def ctExec : JVal := .jobj [("code", .jstr "1+1")]

/-- A complete wire message for an execute request, whose signature frame
`"deadbeef"` does not match any recomputed digest of `env0`. -/
def msgExec : List Frame :=
  [.raw "<IDS|MSG>", .raw "deadbeef", .json hdrExec, .json emptyObj,
   .json emptyObj, .json ctExec]

/-- A complete wire message with an unknown message type. -/
def msgUnknown : List Frame :=
  [.raw "<IDS|MSG>", .raw "deadbeef", .json hdrUnknown, .json emptyObj,
   .json emptyObj, .json emptyObj]

/-- A complete wire message for a history request. -/
def msgHist : List Frame :=
  [.raw "<IDS|MSG>", .raw "deadbeef", .json hdrHist, .json emptyObj,
   .json emptyObj, .json emptyObj]

/-- A wire message whose header part is not valid JSON. -/
def msgBadHeader : List Frame :=
  [.raw "<IDS|MSG>", .raw "deadbeef", .raw "garbage", .json emptyObj,
   .json emptyObj, .json emptyObj]

/-! ### The claims -/

/-- Claim C5: for every (header, parent_header, metadata, content), `send`
emits the frames `["<IDS|MSG>", signature, header_json, parent_header_json,
metadata_json, content_json]` in exactly that order, where the signature is
the keyed digest seeded with the process secret key, updated sequentially
with the four serialized parts in the fixed order header, parent_header,
metadata, content, rendered as lowercase hex text. -/
theorem C5_send_frames (env : Env) (h p m c : JVal) :
    send env h p m c =
      ["<IDS|MSG>",
       toHexPad64 (env.digest env.key
         [env.enc h, env.enc p, env.enc m, env.enc c]),
       env.enc h, env.enc p, env.enc m, env.enc c] ∧
    ∀ ch ∈ (toHexPad64 (env.digest env.key
        [env.enc h, env.enc p, env.enc m, env.enc c])).toList,
      isLowerHex ch = true :=
  ⟨rfl, fun ch hch => toHexPad64_lower _ ch hch⟩

/-- Witness for C5 at a concrete environment and message: the frame list is
literal and the zero digest renders as 64 lowercase-hex characters. -/
theorem C5_send_frames_witness :
    send env0 .jnull .jnull .jnull .jnull =
      ["<IDS|MSG>", toHexPad64 0, "json", "json", "json", "json"] ∧
    isLowerHex '0' = true := by
  have hfull := C5_send_frames env0 .jnull .jnull .jnull .jnull
  exact ⟨hfull.1, hfull.2 '0' (by decide)⟩

/-- Claim C7 (amended): every channel run-loop retries its wait on a
`ZMQError` with errno `EINTR`; a `ZMQError` with any other errno is always
propagated, regardless of the shutdown flag; a non-transport exception is
propagated by `run_thread` unless the shutdown flag is set (then the loop
exits quietly), while `heartbeat_loop` has no handler for it and always
propagates it. -/
theorem C7_loop_retry (exiting : Bool) (e : Nat) :
    run_thread_step exiting (.zmqError EINTR) = .retry ∧
    heartbeat_step exiting (.zmqError EINTR) = .retry ∧
    (e ≠ EINTR →
      run_thread_step exiting (.zmqError e) = .propagate ∧
      heartbeat_step exiting (.zmqError e) = .propagate) ∧
    run_thread_step exiting .otherExc =
      (if exiting then .breakQuiet else .propagate) ∧
    heartbeat_step exiting .otherExc = .propagate := by
  refine ⟨rfl, rfl, ?_, rfl, rfl⟩
  intro hne
  constructor
  · simp only [run_thread_step, if_neg hne]
  · simp only [heartbeat_step, if_neg hne]

/-- Counterexample to C7 as stated: with the shutdown flag set, a `ZMQError`
with errno 5 (not `EINTR`) still terminates `run_thread` by propagating the
error, instead of exiting quietly. -/
theorem C7_loop_retry_counterexample :
    run_thread_step true (.zmqError 5) = .propagate ∧
    LoopOutcome.propagate ≠ LoopOutcome.breakQuiet := by
  exact ⟨rfl, by decide⟩

/-- Witness for C7 at concrete inputs. -/
theorem C7_loop_retry_witness :
    run_thread_step false (.zmqError EINTR) = .retry ∧
    run_thread_step false (.zmqError 5) = .propagate ∧
    heartbeat_step true .otherExc = .propagate := by
  have h := C7_loop_retry false 5
  have h2 := C7_loop_retry true 5
  exact ⟨h.1, (h.2.2.1 (by decide)).1, h2.2.2.2.2⟩

/-- Claim C8: dispatch is independent of the received signature frame — for
any inbound shell message whose delimiter scan succeeds at `p`, replacing
the signature frame (index `p + 1`) by anything yields the same handler
result (same replies, broadcasts and counter update for the same fresh-id
supply). -/
theorem C8_sig_independent (env : Env) (ec : Nat) (msg : List Frame)
    (p : Nat) (s : Frame) (hscan : scanDelim env msg = .ok p) :
    shell_handler env ec (msg.set (p + 1) s) = shell_handler env ec msg := by
  by_cases hlen : p + 1 < msg.length
  case neg =>
    rw [List.set_eq_of_length_le (by omega)]
  case pos =>
    have hscan' : scanDelim env (msg.set (p + 1) s) = .ok p := by
      rw [scanDelim_ok_iff] at hscan ⊢
      obtain ⟨f, hk, hd, hall⟩ := hscan
      refine ⟨f, ?_, hd, ?_⟩
      · rw [List.getElem?_set_ne (by omega)]
        exact hk
      · intro m f' hm hmf'
        rw [List.getElem?_set_ne (by omega : p + 1 ≠ m)] at hmf'
        exact hall m f' hm hmf'
    have e2 : decodePart (msg.set (p + 1) s) (p + 2) = decodePart msg (p + 2) := by
      unfold decodePart pyGet
      rw [List.getElem?_set_ne (by omega)]
    have e3 : decodePart (msg.set (p + 1) s) (p + 3) = decodePart msg (p + 3) := by
      unfold decodePart pyGet
      rw [List.getElem?_set_ne (by omega)]
    have e4 : decodePart (msg.set (p + 1) s) (p + 4) = decodePart msg (p + 4) := by
      unfold decodePart pyGet
      rw [List.getElem?_set_ne (by omega)]
    have e5 : decodePart (msg.set (p + 1) s) (p + 5) = decodePart msg (p + 5) := by
      unfold decodePart pyGet
      rw [List.getElem?_set_ne (by omega)]
    rw [shell_handler_eq env ec msg p hscan,
        shell_handler_eq env ec (msg.set (p + 1) s) p hscan',
        pyGet_eq_ok msg (p + 1) hlen,
        pyGet_eq_ok (msg.set (p + 1) s) (p + 1) (by simpa using hlen),
        except_bind_ok, except_bind_ok, e2, e3, e4, e5]

/-- Witness for C8: forging the signature frame of a concrete execute
request does not change the handler result. -/
theorem C8_sig_independent_witness :
    shell_handler env0 1 (msgExec.set 1 (Frame.raw "forged")) =
      shell_handler env0 1 msgExec :=
  C8_sig_independent env0 1 msgExec 0 (Frame.raw "forged") rfl

/-- Claim C9: the delimiter scan of `shell_handler` indexes past the end of
the frame list exactly as claimed — a message with no delimiter frame makes
the handler raise `IndexError`, while a delimiter frame followed by at least
five further frames makes the out-of-range branch unreachable. -/
theorem C9_delim_totality (env : Env) (ec : Nat) (msg : List Frame) :
    ((∀ f ∈ msg, frameBytes env.enc f ≠ "<IDS|MSG>") →
      shell_handler env ec msg = .error .indexError) ∧
    (∀ i f, msg[i]? = some f → frameBytes env.enc f = "<IDS|MSG>" →
      i + 6 ≤ msg.length →
      shell_handler env ec msg ≠ .error .indexError) := by
  constructor
  · intro hno
    unfold shell_handler
    rw [scanDelim_none env msg hno]
    rfl
  · intro i f hf hdel hlen
    obtain ⟨p, hscan, hpi⟩ := scanDelim_finds env msg i f hf hdel
    rw [shell_handler_eq env ec msg p hscan,
        pyGet_eq_ok msg (p + 1) (by omega), except_bind_ok]
    refine bind_decodePart_ne_indexError msg (p + 2) (by omega) _ fun sh => ?_
    refine bind_decodePart_ne_indexError msg (p + 3) (by omega) _ fun ph => ?_
    refine bind_decodePart_ne_indexError msg (p + 4) (by omega) _ fun md => ?_
    refine bind_decodePart_ne_indexError msg (p + 5) (by omega) _ fun ct => ?_
    intro hcon
    exact dispatch_error_ne_indexError env.ids ec sh md ct .indexError hcon rfl

/-- Witness for C9: a one-frame message without delimiter raises
`IndexError`; the complete execute message does not. -/
theorem C9_delim_totality_witness :
    shell_handler env0 1 [Frame.raw "only"] = .error .indexError ∧
    shell_handler env0 1 msgExec ≠ .error .indexError := by
  constructor
  · refine (C9_delim_totality env0 1 [Frame.raw "only"]).1 ?_
    intro f hf
    rw [List.mem_singleton.mp hf]
    decide
  · exact (C9_delim_totality env0 1 msgExec).2 0 (Frame.raw "<IDS|MSG>") rfl
      rfl (by decide)

/-- Claim C2 (amended): the handler computes `check_sig` but never compares
it with the received signature: a message whose received signature does not
equal the recomputed digest over the four raw parts is processed exactly
like any other — decoding proceeds and the request is dispatched, so replies
are sent (legacy fail-open), not rejected. -/
theorem C2_fail_open (env : Env) (ec : Nat) (msg : List Frame) (p : Nat)
    (sigf : Frame) (sh ph md ct : JVal)
    (hscan : scanDelim env msg = .ok p)
    (hsig : msg[p + 1]? = some sigf)
    (h2 : decodePart msg (p + 2) = .ok sh)
    (h3 : decodePart msg (p + 3) = .ok ph)
    (h4 : decodePart msg (p + 4) = .ok md)
    (h5 : decodePart msg (p + 5) = .ok ct)
    (_hmismatch : frameBytes env.enc sigf ≠ check_sig env msg p) :
    shell_handler env ec msg = dispatch env.ids ec sh md ct := by
  rw [shell_handler_eq env ec msg p hscan, pyGet_of_some msg (p + 1) sigf hsig,
      except_bind_ok, h2, except_bind_ok, h3, except_bind_ok, h4,
      except_bind_ok, h5, except_bind_ok]

/-- Counterexample to C2 as stated: a concrete execute request whose
signature frame `"deadbeef"` differs from the recomputed digest is not
rejected — the broadcast and the reply are both sent and the counter
increments. -/
theorem C2_fail_open_counterexample :
    frameBytes env0.enc (Frame.raw "deadbeef") ≠ check_sig env0 msgExec 0 ∧
    shell_handler env0 1 msgExec =
      .ok ([⟨.iopub, mkHeader "fresh-id" (.jstr "u") (.jstr "s") "pyout",
             hdrExec, emptyObj, pyoutContent 1⟩,
            ⟨.shell, mkHeader "fresh-id" (.jstr "u") (.jstr "s")
               "execute_reply", hdrExec, emptyObj, executeReplyContent 1⟩],
           2) := by
  exact ⟨by decide, rfl⟩

/-- Witness for C2 at the concrete mismatched message. -/
theorem C2_fail_open_witness :
    shell_handler env0 1 msgExec = dispatch env0.ids 1 hdrExec emptyObj ctExec := by
  refine C2_fail_open env0 1 msgExec 0 (Frame.raw "deadbeef") hdrExec emptyObj
    emptyObj ctExec rfl rfl rfl rfl rfl rfl ?_
  decide

/-- Claim C4 (amended): a message with an undecodable part makes the handler
raise the decode error without sending anything; in the channel loop that is
an unexpected (non-ZMQ) exception, so the loop terminates by propagating it
unless the shutdown flag is set, in which case it exits quietly. -/
theorem C4_undecodable_raises (env : Env) (ec : Nat) (msg : List Frame)
    (p : Nat) (f : Frame)
    (hscan : scanDelim env msg = .ok p)
    (hf : msg[p + 2]? = some f)
    (hdec : decodeF f = none) :
    shell_handler env ec msg = .error .decodeError ∧
    run_thread_step false .otherExc = .propagate ∧
    run_thread_step true .otherExc = .breakQuiet := by
  refine ⟨?_, rfl, rfl⟩
  have h1 : p + 1 < msg.length := by
    rcases List.getElem?_eq_some_iff.mp hf with ⟨hh, -⟩
    omega
  rw [shell_handler_eq env ec msg p hscan, pyGet_eq_ok msg (p + 1) h1,
      except_bind_ok, decodePart_of_some msg (p + 2) f hf, hdec]
  rfl

/-- Counterexample to C4 as stated: a concrete message whose header part is
not valid JSON does not produce the unknown-type error reply — the handler
raises instead and the run loop (shutdown flag unset) propagates. -/
theorem C4_undecodable_counterexample :
    shell_handler env0 1 msgBadHeader = .error .decodeError ∧
    (shell_handler env0 1 msgBadHeader).isOk = false ∧
    run_thread_step false .otherExc = .propagate := by
  exact ⟨rfl, rfl, rfl⟩

/-- Witness for C4 at the concrete undecodable message. -/
theorem C4_undecodable_witness :
    shell_handler env0 1 msgBadHeader = .error .decodeError ∧
    run_thread_step false .otherExc = .propagate ∧
    run_thread_step true .otherExc = .breakQuiet :=
  C4_undecodable_raises env0 1 msgBadHeader 0 (.raw "garbage") rfl rfl rfl

/-- Claim C1 (amended): the Execution Counter is incremented exactly once
per shell message whose handling completes, of every type — the increment on
line 225 sits after the whole if/elif chain — and an unknown-type message
still gets a reply with status "error" while the counter after handling
equals the counter before plus one (not unchanged). -/
theorem C1_counter_increment (ids : Nat → String) (ec : Nat)
    (sh md ct : JVal) (outs : List Sent) (ec' : Nat)
    (hd : dispatch ids ec sh md ct = .ok (outs, ec')) :
    ec' = ec + 1 ∧
    ∀ mt, sh.getKey "msg_type" = .ok mt →
      jstrEq mt "execute_request" = false →
      jstrEq mt "kernel_info_request" = false →
      jstrEq mt "history_request" = false →
      ∃ u s, outs = [⟨.shell, mkHeader (ids 0) u s "execute_reply", sh, md,
                      errorReplyContent ec⟩] ∧
        (errorReplyContent ec).getKey "status" = .ok (.jstr "error") := by
  obtain ⟨hec, mt, u, s, hmt, hu, hs, hbr⟩ :=
    dispatch_ok_cases ids ec sh md ct outs ec' hd
  refine ⟨hec, ?_⟩
  intro mt' hmt' hne hnk hnh
  obtain rfl : mt = mt' := by
    rw [hmt] at hmt'
    exact Except.ok.inj hmt'
  rcases hbr with ⟨hx, -⟩ | ⟨-, hx, -⟩ | ⟨-, -, hx, -⟩ | ⟨-, -, -, houts⟩
  · rw [hne] at hx
    exact Bool.noConfusion hx
  · rw [hnk] at hx
    exact Bool.noConfusion hx
  · rw [hnh] at hx
    exact Bool.noConfusion hx
  · exact ⟨u, s, houts, rfl⟩

/-- Counterexample to C1 as stated: a concrete unknown-type message is
answered with a status-"error" reply, but the counter is incremented from 1
to 2 rather than left unchanged. -/
theorem C1_counter_counterexample :
    shell_handler env0 1 msgUnknown =
      .ok ([⟨.shell, mkHeader "fresh-id" (.jstr "u") (.jstr "s")
               "execute_reply", hdrUnknown, emptyObj, errorReplyContent 1⟩],
           2) ∧
    (2 : Nat) ≠ 1 ∧
    (errorReplyContent 1).getKey "status" = .ok (.jstr "error") := by
  exact ⟨rfl, by decide, rfl⟩

/-- Witness for C1 at the concrete unknown-type request. -/
theorem C1_counter_witness :
    (2 : Nat) = 1 + 1 ∧
    ∃ u s, ([⟨Chan.shell, mkHeader "fresh-id" (JVal.jstr "u") (JVal.jstr "s")
               "execute_reply", hdrUnknown, emptyObj, errorReplyContent 1⟩] :
           List Sent) =
        [⟨Chan.shell, mkHeader (env0.ids 0) u s "execute_reply", hdrUnknown,
          emptyObj, errorReplyContent 1⟩] ∧
      (errorReplyContent 1).getKey "status" = .ok (.jstr "error") := by
  have h := C1_counter_increment env0.ids 1 hdrUnknown emptyObj emptyObj _ 2 rfl
  exact ⟨h.1, h.2 (JVal.jstr "comm_open") rfl rfl rfl rfl⟩

/-- Claim C3 (amended): for every accepted execute request the counter steps
to `ec + 1`, but the execute-reply's `execution_count` field carries the
pre-increment value `ec`, not the post-increment value. -/
theorem C3_reply_preincrement (ids : Nat → String) (ec : Nat)
    (sh md ct : JVal) (outs : List Sent) (ec' : Nat)
    (hmt : sh.getKey "msg_type" = .ok (.jstr "execute_request"))
    (hd : dispatch ids ec sh md ct = .ok (outs, ec')) :
    ec' = ec + 1 ∧
    ∃ u s, outs = [⟨.iopub, mkHeader (ids 0) u s "pyout", sh, md,
                    pyoutContent ec⟩,
                   ⟨.shell, mkHeader (ids 1) u s "execute_reply", sh, md,
                    executeReplyContent ec⟩] ∧
      (executeReplyContent ec).getKey "execution_count" = .ok (.jnum ec) ∧
      (executeReplyContent ec).getKey "execution_count" ≠ .ok (.jnum ec') := by
  obtain ⟨hec, mt, u, s, hmt2, hu, hs, hbr⟩ :=
    dispatch_ok_cases ids ec sh md ct outs ec' hd
  obtain rfl : mt = .jstr "execute_request" := by
    rw [hmt] at hmt2
    exact (Except.ok.inj hmt2).symm
  rcases hbr with ⟨-, houts⟩ | ⟨hx, -, -⟩ | ⟨hx, -, -, -⟩ | ⟨hx, -, -, -⟩
  · subst hec
    refine ⟨rfl, u, s, houts, rfl, ?_⟩
    intro hcon
    rw [show (executeReplyContent ec).getKey "execution_count" =
        Except.ok (JVal.jnum ec) from rfl] at hcon
    have h3 := JVal.jnum.inj (Except.ok.inj hcon)
    omega
  · exact Bool.noConfusion hx
  · exact Bool.noConfusion hx
  · exact Bool.noConfusion hx

/-- Counterexample to C3 as stated: the first-ever execute request steps the
counter to 2, but the reply's `execution_count` field is 1 (the
pre-increment value), not 2. -/
theorem C3_reply_preincrement_counterexample :
    shell_handler env0 1 msgExec =
      .ok ([⟨.iopub, mkHeader "fresh-id" (.jstr "u") (.jstr "s") "pyout",
             hdrExec, emptyObj, pyoutContent 1⟩,
            ⟨.shell, mkHeader "fresh-id" (.jstr "u") (.jstr "s")
               "execute_reply", hdrExec, emptyObj, executeReplyContent 1⟩],
           2) ∧
    (executeReplyContent 1).getKey "execution_count" = .ok (.jnum 1) ∧
    (executeReplyContent 1).getKey "execution_count" ≠ .ok (.jnum 2) := by
  refine ⟨rfl, rfl, ?_⟩
  intro hcon
  rw [show (executeReplyContent 1).getKey "execution_count" =
      Except.ok (JVal.jnum 1) from rfl] at hcon
  exact absurd (JVal.jnum.inj (Except.ok.inj hcon)) (by decide)

/-- Witness for C3 at the concrete execute request. -/
theorem C3_reply_preincrement_witness :
    (2 : Nat) = 1 + 1 ∧
    ∃ u s, ([⟨Chan.iopub, mkHeader "fresh-id" (JVal.jstr "u") (JVal.jstr "s")
               "pyout", hdrExec, emptyObj, pyoutContent 1⟩,
             ⟨Chan.shell, mkHeader "fresh-id" (JVal.jstr "u") (JVal.jstr "s")
               "execute_reply", hdrExec, emptyObj, executeReplyContent 1⟩] :
           List Sent) =
        [⟨Chan.iopub, mkHeader (env0.ids 0) u s "pyout", hdrExec, emptyObj,
          pyoutContent 1⟩,
         ⟨Chan.shell, mkHeader (env0.ids 1) u s "execute_reply", hdrExec,
          emptyObj, executeReplyContent 1⟩] ∧
      (executeReplyContent 1).getKey "execution_count" = .ok (.jnum 1) ∧
      (executeReplyContent 1).getKey "execution_count" ≠ .ok (.jnum 2) :=
  C3_reply_preincrement env0.ids 1 hdrExec emptyObj ctExec _ 2 rfl rfl

/-- Claim C6: every reply and broadcast generated from an inbound shell
request has `parent_header` equal to the request's header, copies
`username` and `session` from the request's header, and carries a
`msg_id` drawn from the fresh-id supply (never the request's own id, as
long as the supply avoids it). -/
theorem C6_reply_causality (ids : Nat → String) (ec : Nat) (sh md ct : JVal)
    (outs : List Sent) (ec' : Nat) (reqId : JVal)
    (hd : dispatch ids ec sh md ct = .ok (outs, ec'))
    (_hreq : sh.getKey "msg_id" = .ok reqId) :
    ∀ out ∈ outs,
      out.parent_header = sh ∧
      out.header.getKey "username" = sh.getKey "username" ∧
      out.header.getKey "session" = sh.getKey "session" ∧
      ∃ n, n < 2 ∧ out.header.getKey "msg_id" = .ok (.jstr (ids n)) ∧
        ((∀ m, JVal.jstr (ids m) ≠ reqId) →
          out.header.getKey "msg_id" ≠ .ok reqId) := by
  obtain ⟨-, mt, u, s, hmt, hu, hs, hbr⟩ :=
    dispatch_ok_cases ids ec sh md ct outs ec' hd
  have base : ∀ (n : Nat) (mtp : String) (ch : Chan) (cnt : JVal), n < 2 →
      (Sent.mk ch (mkHeader (ids n) u s mtp) sh md cnt).parent_header = sh ∧
      (mkHeader (ids n) u s mtp).getKey "username" = sh.getKey "username" ∧
      (mkHeader (ids n) u s mtp).getKey "session" = sh.getKey "session" ∧
      ∃ k, k < 2 ∧
        (mkHeader (ids n) u s mtp).getKey "msg_id" = .ok (.jstr (ids k)) ∧
        ((∀ m, JVal.jstr (ids m) ≠ reqId) →
          (mkHeader (ids n) u s mtp).getKey "msg_id" ≠ .ok reqId) := by
    intro n mtp ch cnt hn
    refine ⟨rfl, by rw [hu]; rfl, by rw [hs]; rfl, n, hn, rfl, ?_⟩
    intro hfr hcon
    exact hfr n (Except.ok.inj hcon)
  rcases hbr with ⟨-, houts⟩ | ⟨-, -, houts⟩ | ⟨-, -, -, houts⟩ |
    ⟨-, -, -, houts⟩ <;> subst houts <;> intro out hout
  · rcases List.mem_cons.mp hout with rfl | hout2
    · exact base 0 "pyout" .iopub (pyoutContent ec) (by omega)
    · rw [List.mem_singleton.mp hout2]
      exact base 1 "execute_reply" .shell (executeReplyContent ec) (by omega)
  · rw [List.mem_singleton.mp hout]
    exact base 0 "kernel_info_reply" .shell kernelInfoContent (by omega)
  · rw [List.mem_singleton.mp hout]
    exact base 0 "kernel_info_reply" .shell historyContent (by omega)
  · rw [List.mem_singleton.mp hout]
    exact base 0 "execute_reply" .shell (errorReplyContent ec) (by omega)

/-- Witness for C6: the concrete execute reply links back to the request
header, copies its `username`/`session`, and its `msg_id` is the supply's
value, not the request's id `"a"`. -/
theorem C6_reply_causality_witness :
    (⟨Chan.shell, mkHeader "fresh-id" (JVal.jstr "u") (JVal.jstr "s")
        "execute_reply", hdrExec, emptyObj, executeReplyContent 1⟩ :
      Sent).parent_header = hdrExec ∧
    (mkHeader "fresh-id" (JVal.jstr "u") (JVal.jstr "s")
        "execute_reply").getKey "username" = hdrExec.getKey "username" ∧
    (mkHeader "fresh-id" (JVal.jstr "u") (JVal.jstr "s")
        "execute_reply").getKey "session" = hdrExec.getKey "session" ∧
    (mkHeader "fresh-id" (JVal.jstr "u") (JVal.jstr "s")
        "execute_reply").getKey "msg_id" ≠ .ok (.jstr "a") := by
  have h := C6_reply_causality env0.ids 1 hdrExec emptyObj ctExec _ 2
    (.jstr "a") rfl rfl
  have h2 := h (⟨Chan.shell, mkHeader "fresh-id" (JVal.jstr "u")
    (JVal.jstr "s") "execute_reply", hdrExec, emptyObj,
    executeReplyContent 1⟩) (List.Mem.tail _ (List.Mem.head _))
  obtain ⟨hpar, husr, hses, n, -, -, hfr⟩ := h2
  refine ⟨hpar, husr, hses, hfr ?_⟩
  intro m hcon
  have hstr : ("fresh-id" : String) = "a" := JVal.jstr.inj hcon
  exact absurd hstr (by decide)

/-- Claim C10: a history request is answered by a single shell reply whose
header's `msg_type` is `"kernel_info_reply"` (not a history-specific type)
and whose content is exactly the mapping `{"output": false}`. -/
theorem C10_history_reply (ids : Nat → String) (ec : Nat) (sh md ct : JVal)
    (outs : List Sent) (ec' : Nat)
    (hmt : sh.getKey "msg_type" = .ok (.jstr "history_request"))
    (hd : dispatch ids ec sh md ct = .ok (outs, ec')) :
    ∃ u s, outs = [⟨.shell, mkHeader (ids 0) u s "kernel_info_reply", sh, md,
                    .jobj [("output", .jbool false)]⟩] ∧
      (mkHeader (ids 0) u s "kernel_info_reply").getKey "msg_type" =
        .ok (.jstr "kernel_info_reply") := by
  obtain ⟨-, mt, u, s, hmt2, hu, hs, hbr⟩ :=
    dispatch_ok_cases ids ec sh md ct outs ec' hd
  obtain rfl : mt = .jstr "history_request" := by
    rw [hmt] at hmt2
    exact (Except.ok.inj hmt2).symm
  rcases hbr with ⟨hx, -⟩ | ⟨-, hx, -⟩ | ⟨-, -, -, houts⟩ | ⟨-, -, hx, -⟩
  · exact Bool.noConfusion hx
  · exact Bool.noConfusion hx
  · exact ⟨u, s, houts, rfl⟩
  · exact Bool.noConfusion hx

/-- Witness for C10 at the concrete history request. -/
theorem C10_history_reply_witness :
    ∃ u s, ([⟨Chan.shell, mkHeader "fresh-id" (JVal.jstr "u") (JVal.jstr "s")
               "kernel_info_reply", hdrHist, emptyObj, historyContent⟩] :
           List Sent) =
        [⟨Chan.shell, mkHeader (env0.ids 0) u s "kernel_info_reply", hdrHist,
          emptyObj, .jobj [("output", .jbool false)]⟩] ∧
      (mkHeader (env0.ids 0) u s "kernel_info_reply").getKey "msg_type" =
        .ok (.jstr "kernel_info_reply") :=
  C10_history_reply env0.ids 1 hdrHist emptyObj emptyObj _ 2 rfl rfl

end SimpleKernel
